import Mathlib

/-
  Verification development for the Sony Bloggie image unwarper
  (src/bloggie_unwarper_GUI.py).

  The core transform is embedded shallowly:
  * `build_map` (source lines 15-24) is translated elementwise: the numpy
    broadcasting produces, at destination pixel (x, y), exactly the scalar
    expressions modelled by `map_radius`, `map_angle` and `map_entry`.
    Floating-point arithmetic is modelled by an arbitrary linear ordered
    field `α`, and the transcendental functions `cos`, `sin` and the
    constant `pi` are passed as parameters (instantiated with `Real.cos`,
    `Real.sin`, `Real.pi` for the exact-arithmetic theorems, and with
    computable stand-ins over `ℚ` for concrete evaluations that do not
    depend on trigonometric values).
  * `unwarp` (source lines 26-30) derives the destination height, builds
    the map, and hands everything to the resampler.  The Python code
    performs no input validation anywhere on this path, so the embedding
    reaches the resampler for every input; the `Except` codomain records
    the only rejection in the whole pipeline (the resampler's empty-source
    check).
  * The resampler itself is OpenCV's `cv2.remap`, which is external
    library code, not part of this repository; it is modelled from the
    spec (see `remap` below).
-/

namespace Bloggie

variable {α : Type} [LinearOrderedField α] [FloorRing α]

/-- Source line 13: `ASPECT = 360.0 / 55.0`. -/
def ASPECT (α : Type) [LinearOrderedField α] : α := 360 / 55

/-- Source line 12: `Y_WARP_A = 0.1850`. -/
def Y_WARP_A (α : Type) [LinearOrderedField α] : α := 1850 / 10000

/-- Source line 12: `Y_WARP_B = 0.8184`. -/
def Y_WARP_B (α : Type) [LinearOrderedField α] : α := 8184 / 10000

/-- Source line 12: `Y_WARP_C = -0.0028`. -/
def Y_WARP_C (α : Type) [LinearOrderedField α] : α := -(28 / 10000)

/-- Source lines 18-20 of `build_map`, at destination row `y`:
`y = ys / float(unw_h)`, `yfrac = yA*(y**2) + yB*y + yC`,
`radius = (yfrac * (rmax - rmin)) + rmin`. -/
def map_radius (unw_h : ℕ) (rmin rmax yA yB yC : α) (y : ℕ) : α :=
  let yv : α := (y : α) / (unw_h : α)
  let yfrac : α := yA * yv ^ 2 + yB * yv + yC
  yfrac * (rmax - rmin) + rmin

/-- Source line 21 of `build_map`, at destination column `x`:
`angle = (0.0 - (xs / float(unw_w)) * (2.0*math.pi)) + shift`. -/
def map_angle (pi : α) (unw_w : ℕ) (shift : α) (x : ℕ) : α :=
  (0 - ((x : α) / (unw_w : α)) * (2 * pi)) + shift

/-- Source lines 22-23 of `build_map`, at destination pixel `(x, y)`:
`map_x = cx + radius * np.cos(angle)`, `map_y = cy + radius * np.sin(angle)`. -/
def map_entry (cos sin : α → α) (pi : α) (unw_w unw_h : ℕ)
    (cx cy rmin rmax shift yA yB yC : α) (x y : ℕ) : α × α :=
  (cx + map_radius unw_h rmin rmax yA yB yC y * cos (map_angle pi unw_w shift x),
   cy + map_radius unw_h rmin rmax yA yB yC y * sin (map_angle pi unw_w shift x))

/-- Source lines 15-24: `build_map` returns the pair of `unw_h × unw_w`
coordinate tables `(map_x, map_y)`; entry `(y, x)` is `map_entry ... x y`. -/
def build_map (cos sin : α → α) (pi : α) (unw_w unw_h : ℕ)
    (cx cy rmin rmax shift yA yB yC : α) :
    List (List α) × List (List α) :=
  ((List.range unw_h).map fun y => (List.range unw_w).map fun x =>
      (map_entry cos sin pi unw_w unw_h cx cy rmin rmax shift yA yB yC x y).1,
   (List.range unw_h).map fun y => (List.range unw_w).map fun x =>
      (map_entry cos sin pi unw_w unw_h cx cy rmin rmax shift yA yB yC x y).2)

/-- Interpolation modes of the resampler (source line 29 chooses between
`cv2.INTER_NEAREST` and `cv2.INTER_CUBIC`). -/
inductive InterpMode
  | nearest
  | cubic
deriving DecidableEq

/-- The only rejection anywhere in the unwarp pipeline: the resampler's
zero-area-source check (spec §7 `EmptySource`).  The repository's own code
raises nothing. -/
inductive UnwarpError
  | emptySource
deriving DecidableEq, Repr

/-- Source line 29: `mode = cv2.INTER_NEAREST if interp == "nearest" else
cv2.INTER_CUBIC`. -/
def pick_mode (interp : String) : InterpMode :=
  if interp = "nearest" then InterpMode.nearest else InterpMode.cubic

/-- Modelled from the spec: pixel fetch with the `cv2.BORDER_CONSTANT`,
`borderValue=0` policy the source requests on line 30 (spec §4.2: border
pixels outside `[0,sourceWidth)×[0,sourceHeight)` read as the constant
zero fill value).  Pixels are single-channel values in `α` (spec §3 treats
channel depth as opaque; a multi-channel raster is this applied per
channel). -/
def getPix (src : List (List α)) (x y : ℤ) : α :=
  if 0 ≤ x ∧ 0 ≤ y then (src.getD y.toNat []).getD x.toNat 0 else 0

/-- Modelled from the spec (§4.2 Nearest): round both coordinates to the
nearest integer source pixel; an out-of-bounds rounded coordinate yields
the fill value (via `getPix`). -/
def sampleNearest (src : List (List α)) (mx my : α) : α :=
  getPix src (round mx) (round my)

/-- Modelled from the spec (§4.2 Smooth): the bicubic convolution weight
function with the OpenCV kernel parameter `a = -0.75`. -/
def cubicW (d : α) : α :=
  let t := |d|
  if t ≤ 1 then (125 / 100) * t ^ 3 - (225 / 100) * t ^ 2 + 1
  else if t < 2 then -(75 / 100) * t ^ 3 + (375 / 100) * t ^ 2 - 6 * t + 3
  else 0

/-- Offsets of the 4×4 bicubic neighborhood around the floor of the
sampled coordinate. -/
def offs : List ℤ := [-1, 0, 1, 2]

/-- Modelled from the spec (§4.2 Smooth): bicubic interpolation over the
4×4 neighborhood of the fractional coordinate; neighbors outside the
source bounds contribute the fill value 0 (constant zero padding, not
edge clamping), via `getPix`. -/
def sampleCubic (src : List (List α)) (mx my : α) : α :=
  let i0 : ℤ := ⌊mx⌋
  let j0 : ℤ := ⌊my⌋
  (offs.map fun dj =>
    (offs.map fun di =>
      cubicW (mx - ((i0 + di : ℤ) : α)) * cubicW (my - ((j0 + dj : ℤ) : α)) *
        getPix src (i0 + di) (j0 + dj)).sum).sum

/-- Modelled from the spec: the resampler (`cv2.remap` on source line 30
with `borderMode=cv2.BORDER_CONSTANT, borderValue=0`) is external library
code, not part of this repository.  Spec §4.2/§7: a zero-area source
raster is rejected (`EmptySource`) before the per-pixel loop; otherwise
each destination pixel `(x, y)` samples the source at the fractional
coordinate `(mx[y][x], my[y][x])` by nearest or bicubic interpolation,
and the output has the map's dimensions. -/
def remap (src : List (List α)) (mx my : List (List α)) (mode : InterpMode) :
    Except UnwarpError (List (List α)) :=
  if src.length = 0 ∨ (src.getD 0 []).length = 0 then
    Except.error UnwarpError.emptySource
  else
    Except.ok (List.zipWith
      (fun rx ry => List.zipWith
        (fun a b =>
          match mode with
          | InterpMode.nearest => sampleNearest src a b
          | InterpMode.cubic => sampleCubic src a b) rx ry)
      mx my)

/-- Source line 27: `unw_h = int(round(unw_w / ASPECT))` (Python's `round`
modelled by Mathlib's `round` on exact rationals). -/
def destHeight (unw_w : ℤ) : ℤ :=
  round ((unw_w : ℚ) / ASPECT ℚ)

/-- Whether an `Except` result is a normal (non-error) return. -/
def isOk {ε β : Type} : Except ε β → Bool
  | Except.ok _ => true
  | Except.error _ => false

/-- Source lines 26-30: `unwarp` derives the destination height, builds
the coordinate map with the default warp-curve coefficients, and resamples
with the selected interpolation mode.  The source performs no input
validation of its own, so every branch of this definition reaches the
resampler. -/
def unwarp (cos sin : α → α) (pi : α) (img : List (List α)) (unw_w : ℤ)
    (cx cy rmin rmax shift : α) (interp : String) :
    Except UnwarpError (List (List α)) :=
  let unw_h : ℤ := destHeight unw_w
  let mm := build_map cos sin pi unw_w.toNat unw_h.toNat cx cy rmin rmax shift
    (Y_WARP_A α) (Y_WARP_B α) (Y_WARP_C α)
  remap img mm.1 mm.2 (pick_mode interp)

/-! ## Helper lemmas -/

lemma range_map_getD {β : Type} (n : ℕ) (f : ℕ → β) (d : β) (i : ℕ) (h : i < n) :
    ((List.range n).map f).getD i d = f i := by
  simp [List.getD, List.getElem?_map, List.getElem?_range, h]

lemma build_map_fst_getD {α : Type} [LinearOrderedField α] (cos sin : α → α)
    (pi : α) (w h : ℕ) (cx cy rmin rmax shift yA yB yC : α) (x y : ℕ)
    (hx : x < w) (hy : y < h) :
    ((build_map cos sin pi w h cx cy rmin rmax shift yA yB yC).1.getD y []).getD x 0 =
      cx + map_radius h rmin rmax yA yB yC y * cos (map_angle pi w shift x) := by
  unfold build_map
  rw [range_map_getD h _ _ y hy, range_map_getD w _ _ x hx]
  rfl

lemma build_map_snd_getD {α : Type} [LinearOrderedField α] (cos sin : α → α)
    (pi : α) (w h : ℕ) (cx cy rmin rmax shift yA yB yC : α) (x y : ℕ)
    (hx : x < w) (hy : y < h) :
    ((build_map cos sin pi w h cx cy rmin rmax shift yA yB yC).2.getD y []).getD x 0 =
      cy + map_radius h rmin rmax yA yB yC y * sin (map_angle pi w shift x) := by
  unfold build_map
  rw [range_map_getD h _ _ y hy, range_map_getD w _ _ x hx]
  rfl

lemma map_radius_eq {α : Type} [LinearOrderedField α]
    (h : ℕ) (rmin rmax yA yB yC : α) (y : ℕ) :
    map_radius h rmin rmax yA yB yC y =
      (yA * ((y : α) / (h : α)) ^ 2 + yB * ((y : α) / (h : α)) + yC) * (rmax - rmin)
        + rmin := by
  unfold map_radius
  ring

lemma map_angle_eq {α : Type} [LinearOrderedField α]
    (pi : α) (w : ℕ) (shift : α) (x : ℕ) :
    map_angle pi w shift x = -(((x : α) / (w : α)) * (2 * pi)) + shift := by
  unfold map_angle
  ring

/-! ## Claims -/

/-- C1: for every destination pixel `(x, y)` with `0 ≤ x < destWidth` and
`0 ≤ y < destHeight`, `build_map` produces
`mapX = centerX + radius·cos(angle)` and `mapY = centerY + radius·sin(angle)`
where `t = y / destHeight`, `frac = A·t² + B·t + C`,
`radius = frac·(outerRadius − innerRadius) + innerRadius`, and
`angle = −(x / destWidth)·2π + rotationOffset` (a negative, clockwise
sweep). -/
theorem build_map_pixel_formula {α : Type} [LinearOrderedField α]
    (cos sin : α → α) (pi : α) (w h : ℕ)
    (cx cy rmin rmax shift yA yB yC : α) (x y : ℕ) (hx : x < w) (hy : y < h) :
    ((build_map cos sin pi w h cx cy rmin rmax shift yA yB yC).1.getD y []).getD x 0 =
      cx + ((yA * ((y : α) / (h : α)) ^ 2 + yB * ((y : α) / (h : α)) + yC)
          * (rmax - rmin) + rmin)
        * cos (-(((x : α) / (w : α)) * (2 * pi)) + shift) ∧
    ((build_map cos sin pi w h cx cy rmin rmax shift yA yB yC).2.getD y []).getD x 0 =
      cy + ((yA * ((y : α) / (h : α)) ^ 2 + yB * ((y : α) / (h : α)) + yC)
          * (rmax - rmin) + rmin)
        * sin (-(((x : α) / (w : α)) * (2 * pi)) + shift) := by
  rw [build_map_fst_getD cos sin pi w h cx cy rmin rmax shift yA yB yC x y hx hy,
    build_map_snd_getD cos sin pi w h cx cy rmin rmax shift yA yB yC x y hx hy,
    map_radius_eq, map_angle_eq]
  exact ⟨rfl, rfl⟩

/-- Witness for C1 at `destWidth = 2`, `destHeight = 2`, pixel `(0, 1)`,
with rational stand-ins for `cos`, `sin` and `π`. -/
theorem build_map_pixel_formula_witness :
    ((build_map (fun q => q) (fun q => q + 1) 3 2 2 (10 : ℚ) 20 1 5 0 1 0 1).1.getD
        1 []).getD 0 0 =
      10 + ((1 * ((1 : ℚ) / 2) ^ 2 + 0 * ((1 : ℚ) / 2) + 1) * (5 - 1) + 1)
        * (-(((0 : ℚ) / 2) * (2 * 3)) + 0) ∧
    ((build_map (fun q => q) (fun q => q + 1) 3 2 2 (10 : ℚ) 20 1 5 0 1 0 1).2.getD
        1 []).getD 0 0 =
      20 + ((1 * ((1 : ℚ) / 2) ^ 2 + 0 * ((1 : ℚ) / 2) + 1) * (5 - 1) + 1)
        * (-(((0 : ℚ) / 2) * (2 * 3)) + 0 + 1) :=
  build_map_pixel_formula (fun q => q) (fun q => q + 1) 3 2 2 (10 : ℚ) 20 1 5 0 1 0 1
    0 1 (by decide) (by decide)

/-- C2: `build_map` applies the quadratic radial fraction without clamping —
the radius entering each map entry is exactly
`frac·(outerRadius − innerRadius) + innerRadius`, and whenever `frac`
leaves `[0, 1]` the radius leaves `[innerRadius, outerRadius]` on the
corresponding side, exactly as the unclamped formula dictates. -/
theorem build_map_radius_unclamped {α : Type} [LinearOrderedField α]
    (cos sin : α → α) (pi : α) (w h : ℕ)
    (cx cy rmin rmax shift yA yB yC : α) (x y : ℕ)
    (hx : x < w) (hy : y < h) (hr : rmin < rmax) :
    ((build_map cos sin pi w h cx cy rmin rmax shift yA yB yC).1.getD y []).getD x 0 =
      cx + map_radius h rmin rmax yA yB yC y * cos (map_angle pi w shift x) ∧
    map_radius h rmin rmax yA yB yC y =
      (yA * ((y : α) / (h : α)) ^ 2 + yB * ((y : α) / (h : α)) + yC) * (rmax - rmin)
        + rmin ∧
    (1 < yA * ((y : α) / (h : α)) ^ 2 + yB * ((y : α) / (h : α)) + yC →
      rmax < map_radius h rmin rmax yA yB yC y) ∧
    (yA * ((y : α) / (h : α)) ^ 2 + yB * ((y : α) / (h : α)) + yC < 0 →
      map_radius h rmin rmax yA yB yC y < rmin) := by
  refine ⟨build_map_fst_getD cos sin pi w h cx cy rmin rmax shift yA yB yC x y hx hy,
    map_radius_eq h rmin rmax yA yB yC y, ?_, ?_⟩
  · intro hfrac
    rw [map_radius_eq]
    nlinarith [mul_pos (sub_pos.mpr hfrac) (sub_pos.mpr hr)]
  · intro hfrac
    rw [map_radius_eq]
    nlinarith [mul_pos (neg_pos.mpr hfrac) (sub_pos.mpr hr)]

/-- Witness for C2 at `destHeight = 1`, row `0`, curve `(0, 0, 2)` (so
`frac = 2 > 1`), radii `0 < 1`. -/
theorem build_map_radius_unclamped_witness :
    ((build_map (fun q => q) (fun q => q) 3 1 1 (0 : ℚ) 0 0 1 0 0 0 2).1.getD
        0 []).getD 0 0 =
      0 + map_radius 1 (0 : ℚ) 1 0 0 2 0 * map_angle 3 1 0 0 ∧
    map_radius 1 (0 : ℚ) 1 0 0 2 0 =
      (0 * ((0 : ℚ) / 1) ^ 2 + 0 * ((0 : ℚ) / 1) + 2) * (1 - 0) + 0 ∧
    (1 < 0 * ((0 : ℚ) / 1) ^ 2 + 0 * ((0 : ℚ) / 1) + 2 →
      1 < map_radius 1 (0 : ℚ) 1 0 0 2 0) ∧
    (0 * ((0 : ℚ) / 1) ^ 2 + 0 * ((0 : ℚ) / 1) + 2 < 0 →
      map_radius 1 (0 : ℚ) 1 0 0 2 0 < 0) :=
  build_map_radius_unclamped (fun q => q) (fun q => q) 3 1 1 (0 : ℚ) 0 0 1 0 0 0 2
    0 0 (by decide) (by decide) (by decide)

lemma map_entry_add_two_pi (w h : ℕ) (cx cy rmin rmax shift yA yB yC : ℝ) (x y : ℕ) :
    map_entry Real.cos Real.sin Real.pi w h cx cy rmin rmax (shift + 2 * Real.pi)
        yA yB yC x y =
      map_entry Real.cos Real.sin Real.pi w h cx cy rmin rmax shift yA yB yC x y := by
  unfold map_entry map_angle
  rw [show (0 - ((x : ℝ) / (w : ℝ)) * (2 * Real.pi)) + (shift + 2 * Real.pi)
      = ((0 - ((x : ℝ) / (w : ℝ)) * (2 * Real.pi)) + shift) + 2 * Real.pi from by ring,
    Real.cos_add_two_pi, Real.sin_add_two_pi]

/-- C8: angular periodicity — in exact real arithmetic, `build_map` with
`rotationOffset + 2π` produces exactly the same coordinate map as
`build_map` with `rotationOffset`, for every parameter set. -/
theorem build_map_rotation_periodic (w h : ℕ) (cx cy rmin rmax shift yA yB yC : ℝ) :
    build_map Real.cos Real.sin Real.pi w h cx cy rmin rmax (shift + 2 * Real.pi)
        yA yB yC =
      build_map Real.cos Real.sin Real.pi w h cx cy rmin rmax shift yA yB yC := by
  unfold build_map
  simp only [Prod.mk.injEq]
  constructor <;>
    exact List.map_congr_left fun y _ =>
      List.map_congr_left fun x _ => by rw [map_entry_add_two_pi]

/-- C9: `build_map` is deterministic — it is a pure function of its
arguments, so any two invocations whose dimensions and warp parameters
are pairwise equal return identical coordinate maps; no hidden state or
randomness enters the computation. -/
theorem build_map_deterministic {α : Type} [LinearOrderedField α]
    (cos sin : α → α) (pi : α) (w₁ h₁ : ℕ)
    (cx₁ cy₁ rmin₁ rmax₁ shift₁ yA₁ yB₁ yC₁ : α) (w₂ h₂ : ℕ)
    (cx₂ cy₂ rmin₂ rmax₂ shift₂ yA₂ yB₂ yC₂ : α)
    (hw : w₁ = w₂) (hh : h₁ = h₂) (hcx : cx₁ = cx₂) (hcy : cy₁ = cy₂)
    (hrmin : rmin₁ = rmin₂) (hrmax : rmax₁ = rmax₂) (hshift : shift₁ = shift₂)
    (hA : yA₁ = yA₂) (hB : yB₁ = yB₂) (hC : yC₁ = yC₂) :
    build_map cos sin pi w₁ h₁ cx₁ cy₁ rmin₁ rmax₁ shift₁ yA₁ yB₁ yC₁ =
      build_map cos sin pi w₂ h₂ cx₂ cy₂ rmin₂ rmax₂ shift₂ yA₂ yB₂ yC₂ := by
  subst hw hh hcx hcy hrmin hrmax hshift hA hB hC
  rfl

/-- Witness for C9 at a concrete parameter set over `ℚ`. -/
theorem build_map_deterministic_witness :
    build_map (fun q => q) (fun q => q) 3 4 1 (7 : ℚ) 8 1 5 0 1 2 3 =
      build_map (fun q => q) (fun q => q) 3 4 1 (7 : ℚ) 8 1 5 0 1 2 3 :=
  build_map_deterministic (fun q => q) (fun q => q) 3 4 1 (7 : ℚ) 8 1 5 0 1 2 3
    4 1 7 8 1 5 0 1 2 3 rfl rfl rfl rfl rfl rfl rfl rfl rfl rfl

/-- C10: for every interpolation-mode string other than exactly
`"nearest"` (including `"cubic"`, misspellings and other capitalizations
such as `"Nearest"`), the transform silently selects cubic (Smooth)
interpolation, and `unwarp` behaves exactly as with mode `"cubic"`;
no mode value is ever rejected. -/
theorem unwarp_mode_fallback {α : Type} [LinearOrderedField α] [FloorRing α]
    (cos sin : α → α) (pi : α) (img : List (List α)) (w : ℤ)
    (cx cy rmin rmax shift : α) (interp : String) (hne : interp ≠ "nearest") :
    pick_mode interp = InterpMode.cubic ∧
    unwarp cos sin pi img w cx cy rmin rmax shift interp =
      unwarp cos sin pi img w cx cy rmin rmax shift "cubic" := by
  have hm : pick_mode interp = InterpMode.cubic := by
    unfold pick_mode
    rw [if_neg hne]
  have hc : pick_mode "cubic" = InterpMode.cubic := by decide
  refine ⟨hm, ?_⟩
  unfold unwarp
  rw [hm, hc]

/-- Witness for C10 at the capitalized string `"Nearest"` over `ℚ`. -/
theorem unwarp_mode_fallback_witness :
    pick_mode "Nearest" = InterpMode.cubic ∧
    unwarp (fun q => q) (fun q => q) 3 [[(9 : ℚ)]] 4 0 0 1 5 0 "Nearest" =
      unwarp (fun q => q) (fun q => q) 3 [[(9 : ℚ)]] 4 0 0 1 5 0 "cubic" :=
  unwarp_mode_fallback (fun q => q) (fun q => q) 3 [[(9 : ℚ)]] 4 0 0 1 5 0 "Nearest"
    (by decide)

lemma remap_isOk {α : Type} [LinearOrderedField α] [FloorRing α]
    (src mx my : List (List α)) (mode : InterpMode)
    (h1 : src.length ≠ 0) (h2 : (src.getD 0 []).length ≠ 0) :
    isOk (remap src mx my mode) = true := by
  unfold remap
  rw [if_neg (by push_neg; exact ⟨h1, h2⟩)]
  rfl

/-- C3 counterexample: `unwarp` called with `destWidth = 0` on a nonempty
source raises nothing — it derives `destHeight = 0`, enters `build_map`
(obtaining the empty coordinate map) and returns the empty panorama
normally, so no `InvalidDimensions` rejection exists in the code. -/
theorem unwarp_zero_width_not_rejected :
    unwarp (fun q => q) (fun q => q) 3 [[(1 : ℚ)]] 0 0 0 0 1 0 "nearest" =
      Except.ok [] := by
  simp [unwarp, remap, build_map, destHeight, ASPECT]

/-- C3 (amended): `unwarp` performs no dimension validation — for every
call with `destWidth ≤ 0` or derived `destHeight < 1` on a nonempty
source it still proceeds through map construction and resampling and
returns a normal (non-error) result. -/
theorem unwarp_invalid_dimensions_not_rejected {α : Type} [LinearOrderedField α]
    [FloorRing α] (cos sin : α → α) (pi : α) (img : List (List α)) (w : ℤ)
    (cx cy rmin rmax shift : α) (interp : String)
    (hdim : w ≤ 0 ∨ destHeight w < 1)
    (h1 : img.length ≠ 0) (h2 : (img.getD 0 []).length ≠ 0) :
    isOk (unwarp cos sin pi img w cx cy rmin rmax shift interp) = true := by
  unfold unwarp
  exact remap_isOk _ _ _ _ h1 h2

/-- Witness for the amended C3 at `destWidth = 0` on a nonempty source. -/
theorem unwarp_invalid_dimensions_not_rejected_witness :
    isOk (unwarp (fun q => q) (fun q => q) 3 [[(1 : ℚ)]] 0 0 0 0 1 0 "nearest") =
      true :=
  unwarp_invalid_dimensions_not_rejected (fun q => q) (fun q => q) 3 [[(1 : ℚ)]] 0
    0 0 0 1 0 "nearest" (Or.inl (by decide)) (by decide) (by decide)

/-- C4 counterexample: `unwarp` called with `innerRadius = 5 ≥ outerRadius
= 3` raises nothing — `build_map` is entered, produces the map from the
unclamped radius formula (here `radius = 5.0056`, placed on the single
source pixel by the chosen center), and the resampled panorama carries
the source pixel value `7` through that map. -/
theorem unwarp_inverted_radii_not_rejected :
    unwarp (fun _ => (1 : ℚ)) (fun _ => 0) 0 [[7]] 4 (-(50056 / 10000)) 0 5 3 0
        "nearest" =
      Except.ok [[7, 7, 7, 7]] := by
  have hd : destHeight 4 = 1 := by
    unfold destHeight ASPECT
    rw [round_eq]
    norm_num
  unfold unwarp
  rw [hd]
  norm_num [remap, build_map, map_entry, map_radius, map_angle, pick_mode,
    Y_WARP_A, Y_WARP_B, Y_WARP_C, List.range_succ, sampleNearest, getPix,
    round_eq]
  rfl

/-- C4 (amended): `unwarp` performs no radii validation — for every call
with `innerRadius < 0` or `innerRadius ≥ outerRadius` on a nonempty
source it still enters `build_map` and resampling and returns a normal
(non-error) result. -/
theorem unwarp_invalid_radii_not_rejected {α : Type} [LinearOrderedField α]
    [FloorRing α] (cos sin : α → α) (pi : α) (img : List (List α)) (w : ℤ)
    (cx cy rmin rmax shift : α) (interp : String)
    (hrad : rmin < 0 ∨ rmax ≤ rmin)
    (h1 : img.length ≠ 0) (h2 : (img.getD 0 []).length ≠ 0) :
    isOk (unwarp cos sin pi img w cx cy rmin rmax shift interp) = true := by
  unfold unwarp
  exact remap_isOk _ _ _ _ h1 h2

/-- Witness for the amended C4 at `innerRadius = 5 ≥ outerRadius = 3`. -/
theorem unwarp_invalid_radii_not_rejected_witness :
    isOk (unwarp (fun _ => (1 : ℚ)) (fun _ => 0) 0 [[7]] 4 (-(50056 / 10000)) 0 5 3 0
        "nearest") = true :=
  unwarp_invalid_radii_not_rejected (fun _ => (1 : ℚ)) (fun _ => 0) 0 [[7]] 4
    (-(50056 / 10000)) 0 5 3 0 "nearest" (Or.inr (by decide)) (by decide) (by decide)

/-- C6 counterexample: `destWidth = 1` is positive, and the code accepts
it (nothing is validated), yet the derived destination height
`round(1 / (360/55)) = round(0.1527…)` is `0`, violating
`destHeight ≥ 1`. -/
theorem destHeight_one_is_zero : destHeight 1 = 0 := by
  unfold destHeight ASPECT
  rw [round_eq]
  norm_num

/-- C6 (amended): the destination height always equals
`round(destWidth / aspectRatio)`, but `destHeight ≥ 1` holds exactly when
`destWidth ≥ 4` (for the default aspect ratio `360/55`); for
`destWidth ∈ {1, 2, 3}` the height rounds to `0`. -/
theorem destHeight_formula_and_bound (w : ℤ) :
    destHeight w = round ((w : ℚ) / ASPECT ℚ) ∧ (1 ≤ destHeight w ↔ 4 ≤ w) := by
  refine ⟨rfl, ?_⟩
  unfold destHeight ASPECT
  rw [round_eq, Int.le_floor]
  push_cast
  constructor
  · intro hq
    have h3 : (3 : ℚ) < (w : ℚ) := by linarith
    have h3z : (3 : ℤ) < w := by exact_mod_cast h3
    omega
  · intro hw
    have h4 : (4 : ℚ) ≤ (w : ℚ) := by exact_mod_cast hw
    linarith

/-- C5: a zero-area source raster (zero height or zero width) passed to
the resampler is rejected with the `EmptySource` error before any
per-pixel sampling begins. -/
theorem remap_empty_source_rejected {α : Type} [LinearOrderedField α] [FloorRing α]
    (src mx my : List (List α)) (mode : InterpMode)
    (h : src.length = 0 ∨ (src.getD 0 []).length = 0) :
    remap src mx my mode = Except.error UnwarpError.emptySource := by
  unfold remap
  rw [if_pos h]

/-- Witness for C5 at the empty raster over `ℚ`. -/
theorem remap_empty_source_rejected_witness :
    remap ([] : List (List ℚ)) [[0]] [[0]] InterpMode.nearest =
      Except.error UnwarpError.emptySource :=
  remap_empty_source_rejected [] [[0]] [[0]] InterpMode.nearest (Or.inl rfl)

lemma getPix_neg_x {α : Type} [LinearOrderedField α] (src : List (List α))
    (x y : ℤ) (hx : x < 0) : getPix src x y = 0 := by
  unfold getPix
  rw [if_neg fun h => absurd h.1 (not_le.mpr hx)]

lemma getPix_neg_y {α : Type} [LinearOrderedField α] (src : List (List α))
    (x y : ℤ) (hy : y < 0) : getPix src x y = 0 := by
  unfold getPix
  rw [if_neg fun h => absurd h.2 (not_le.mpr hy)]

lemma getD_length_le {β : Type} (l : List (List β)) (W : ℕ)
    (h : ∀ r ∈ l, r.length = W) (n : ℕ) : (l.getD n []).length ≤ W := by
  by_cases hn : n < l.length
  · rw [List.getD_eq_getElem?_getD, List.getElem?_eq_getElem hn]
    exact le_of_eq (h _ (List.getElem_mem hn))
  · rw [List.getD_eq_default _ _ (le_of_not_lt hn)]
    exact Nat.zero_le W

lemma getPix_ge_w {α : Type} [LinearOrderedField α] (src : List (List α)) (W : ℕ)
    (hW : ∀ r ∈ src, r.length = W) (x y : ℤ) (hx : (W : ℤ) ≤ x) :
    getPix src x y = 0 := by
  unfold getPix
  split
  case isTrue h =>
    refine List.getD_eq_default _ _ (le_trans (getD_length_le src W hW y.toNat) ?_)
    omega
  case isFalse h => rfl

lemma getPix_ge_h {α : Type} [LinearOrderedField α] (src : List (List α)) (H : ℕ)
    (hH : src.length = H) (x y : ℤ) (hy : (H : ℤ) ≤ y) :
    getPix src x y = 0 := by
  unfold getPix
  split
  case isTrue h =>
    rw [List.getD_eq_default _ _ (by omega : src.length ≤ y.toNat)]
    rfl
  case isFalse h => rfl

lemma sampleCubic_zero_col {α : Type} [LinearOrderedField α] [FloorRing α]
    (src : List (List α)) (mx my : α)
    (h : ∀ di ∈ offs, ∀ j : ℤ, getPix src (⌊mx⌋ + di) j = 0) :
    sampleCubic src mx my = 0 := by
  simp only [sampleCubic]
  apply List.sum_eq_zero
  intro z hz
  rw [List.mem_map] at hz
  obtain ⟨dj, hdj, rfl⟩ := hz
  apply List.sum_eq_zero
  intro t ht
  rw [List.mem_map] at ht
  obtain ⟨di, hdi, rfl⟩ := ht
  rw [h di hdi]
  ring

lemma sampleCubic_zero_row {α : Type} [LinearOrderedField α] [FloorRing α]
    (src : List (List α)) (mx my : α)
    (h : ∀ dj ∈ offs, ∀ i : ℤ, getPix src i (⌊my⌋ + dj) = 0) :
    sampleCubic src mx my = 0 := by
  simp only [sampleCubic]
  apply List.sum_eq_zero
  intro z hz
  rw [List.mem_map] at hz
  obtain ⟨dj, hdj, rfl⟩ := hz
  apply List.sum_eq_zero
  intro t ht
  rw [List.mem_map] at ht
  obtain ⟨di, hdi, rfl⟩ := ht
  rw [h dj hdj]
  ring

lemma getD_zero_mem {β : Type} (l : List β) (d : β) (h : 0 < l.length) :
    l.getD 0 d ∈ l := by
  cases l with
  | nil => simp at h
  | cons a t => simp [List.getD]

/-- C7 counterexample: the mapped coordinate `(-0.4, 0)` lies outside
`[0, 1) × [0, 1)` of the 1×1 source `[[5]]`, yet Nearest-mode resampling
rounds `-0.4` to the in-bounds column `0` and returns the source pixel
value `5`, not the constant zero fill value — so not every out-of-bounds
mapped coordinate resamples to the fill value. -/
theorem remap_oob_coordinate_samples_source :
    (-(2 / 5) : ℚ) < 0 ∧
    remap [[(5 : ℚ)]] [[-(2 / 5)]] [[0]] InterpMode.nearest = Except.ok [[5]] := by
  constructor
  · norm_num
  · have hr : round (-(2 / 5) : ℚ) = 0 := by
      rw [round_eq]
      norm_num
    simp [remap, sampleNearest, getPix, hr]

/-- C7 (amended): out-of-bounds resampling is total and uses the constant
zero fill policy, but only once the sampling window has left the raster —
in Nearest mode every pixel whose *rounded* coordinate is out of bounds
reads the fill value `0`; in Smooth mode every pixel whose entire 4×4
bicubic neighborhood is out of bounds yields `0` (out-of-bounds neighbors
contribute the fill value `0`, constant zero padding rather than edge
clamping); and resampling a nonempty source never produces an error.
Mapped coordinates that are out of bounds but round (or whose kernel
window reaches) into the raster may still read source pixels. -/
theorem resample_oob_fill_policy {α : Type} [LinearOrderedField α] [FloorRing α]
    (src : List (List α)) (W H : ℕ)
    (hH : src.length = H) (hW : ∀ r ∈ src, r.length = W)
    (mx₁ my₁ mx₂ my₂ : α)
    (h₁ : round mx₁ < 0 ∨ (W : ℤ) ≤ round mx₁ ∨ round my₁ < 0 ∨ (H : ℤ) ≤ round my₁)
    (h₂ : mx₂ < -2 ∨ (W : α) + 1 ≤ mx₂ ∨ my₂ < -2 ∨ (H : α) + 1 ≤ my₂)
    (hposH : 0 < H) (hposW : 0 < W)
    (mxs mys : List (List α)) (mode : InterpMode) :
    sampleNearest src mx₁ my₁ = 0 ∧
    sampleCubic src mx₂ my₂ = 0 ∧
    isOk (remap src mxs mys mode) = true := by
  refine ⟨?_, ?_, ?_⟩
  · unfold sampleNearest
    rcases h₁ with h | h | h | h
    · exact getPix_neg_x src _ _ h
    · exact getPix_ge_w src W hW _ _ h
    · exact getPix_neg_y src _ _ h
    · exact getPix_ge_h src H hH _ _ h
  · rcases h₂ with h | h | h | h
    · have hf : ⌊mx₂⌋ ≤ -3 := by
        have : ⌊mx₂⌋ < -2 := by
          rw [Int.floor_lt]
          push_cast
          linarith
        omega
      apply sampleCubic_zero_col
      intro di hdi j
      apply getPix_neg_x
      simp [offs] at hdi
      rcases hdi with rfl | rfl | rfl | rfl <;> omega
    · have hf : (W : ℤ) + 1 ≤ ⌊mx₂⌋ := by
        rw [Int.le_floor]
        push_cast
        linarith
      apply sampleCubic_zero_col
      intro di hdi j
      apply getPix_ge_w src W hW
      simp [offs] at hdi
      rcases hdi with rfl | rfl | rfl | rfl <;> omega
    · have hf : ⌊my₂⌋ ≤ -3 := by
        have : ⌊my₂⌋ < -2 := by
          rw [Int.floor_lt]
          push_cast
          linarith
        omega
      apply sampleCubic_zero_row
      intro dj hdj i
      apply getPix_neg_y
      simp [offs] at hdj
      rcases hdj with rfl | rfl | rfl | rfl <;> omega
    · have hf : (H : ℤ) + 1 ≤ ⌊my₂⌋ := by
        rw [Int.le_floor]
        push_cast
        linarith
      apply sampleCubic_zero_row
      intro dj hdj i
      apply getPix_ge_h src H hH
      simp [offs] at hdj
      rcases hdj with rfl | rfl | rfl | rfl <;> omega
  · refine remap_isOk src mxs mys mode (by omega) ?_
    have hmem : src.getD 0 [] ∈ src := getD_zero_mem src [] (by omega)
    have := hW _ hmem
    omega

/-- Witness for the amended C7 on the 1×1 source `[[5]]`, with the
Nearest coordinate `(7, 0)` rounding out of bounds and the Smooth
coordinate `(-3, 0)` placing the whole 4×4 window out of bounds. -/
theorem resample_oob_fill_policy_witness :
    sampleNearest [[(5 : ℚ)]] 7 0 = 0 ∧
    sampleCubic [[(5 : ℚ)]] (-3) 0 = 0 ∧
    isOk (remap [[(5 : ℚ)]] [[0]] [[0]] InterpMode.cubic) = true :=
  resample_oob_fill_policy [[(5 : ℚ)]] 1 1 rfl
    (by
      intro r hr
      simp at hr
      rw [hr]
      rfl)
    7 0 (-3) 0
    (Or.inr (Or.inl (by
      rw [show round (7 : ℚ) = 7 from by rw [round_eq]; norm_num]
      decide)))
    (Or.inl (by norm_num))
    (by decide) (by decide) [[0]] [[0]] InterpMode.cubic

end Bloggie
